import Mathlib

/-!
Verification of the real-time state synchronization client of the
dhan-advance-platform frontend.  The definitions below are a shallow
embedding of the TypeScript source:

* `DataMerger` and the delta envelopes come from
  `src/frontend/src/api/merge.ts`;
* `WebSocketClient`, `api.fetch` and the entity interfaces come from
  `src/frontend/src/api/client.ts`;
* `PositionsView` and its event step come from the `Positions` component
  (the `positions.delta` handler, the snapshot effect and the resume
  effect).

JavaScript numbers on these code paths are only copied and compared,
never subjected to float arithmetic, so numeric entity fields are
embedded as `Int` and sequence numbers as `Nat`.
-/

/-- Position entity (interface `Position` in client.ts).  The `side` union
`'LONG' | 'SHORT'` is embedded as `String`. -/
structure Position where
  id : String
  symbol : String
  side : String
  qty : Int
  avg_price : Int
  ltp : Int
  unrealized : Int
deriving DecidableEq, Repr

/-- Order entity (interface `Order` in client.ts).  The `type` and `status`
string unions are embedded as `String`. -/
structure Order where
  order_id : String
  symbol : String
  side : String
  type : String
  price : Int
  qty : Int
  filled_qty : Int
  status : String
  placed_at : String
deriving DecidableEq, Repr

/-- Holding entity (interface `Holding` in client.ts). -/
structure Holding where
  isin : String
  symbol : String
  qty : Int
  avg_price : Int
  ltp : Int
  value : Int
  day_change : Int
deriving DecidableEq, Repr

/-- Trade entity (interface `Trade` in client.ts). -/
structure Trade where
  trade_id : String
  order_id : String
  symbol : String
  side : String
  price : Int
  qty : Int
  time : String
deriving DecidableEq, Repr

/-- P&L totals (interface `PnLTotals` in client.ts). -/
structure PnLTotals where
  realized : Int
  unrealized : Int
  day : Int
  currency : String
deriving DecidableEq, Repr

/-- Per-symbol P&L row (interface `PnLSymbol` in client.ts). -/
structure PnLSymbol where
  symbol : String
  side : String
  qty : Int
  avg : Int
  ltp : Int
  unrealized : Int
  today_pnl : Int
deriving DecidableEq, Repr

/-- P&L aggregate (interface `PnL` in client.ts). -/
structure PnL where
  totals : PnLTotals
  perSymbol : List PnLSymbol
  updatedAt : String
  tradingDay : String
deriving DecidableEq, Repr

/-- `DeltaChanges<T>` from merge.ts: the change set of one delta. -/
structure DeltaChanges (T : Type) where
  upsert : List T
  remove : List String
deriving DecidableEq, Repr

/-- `PositionsDelta` from merge.ts. -/
structure PositionsDelta where
  type : String
  seq : Nat
  serverTime : String
  changes : DeltaChanges Position
deriving DecidableEq, Repr

/-- `OrdersDelta` from merge.ts.  The optional `statusCounts` summary is not
read by `mergeOrders` and is omitted from the embedding. -/
structure OrdersDelta where
  type : String
  seq : Nat
  changes : DeltaChanges Order
deriving DecidableEq, Repr

/-- `HoldingsDelta` from merge.ts. -/
structure HoldingsDelta where
  type : String
  seq : Nat
  changes : DeltaChanges Holding
deriving DecidableEq, Repr

/-- `TradesDelta` from merge.ts. -/
structure TradesDelta where
  type : String
  seq : Nat
  changes : DeltaChanges Trade
deriving DecidableEq, Repr

/-- `PnLUpdate` from merge.ts. -/
structure PnLUpdate where
  type : String
  seq : Nat
  totals : PnLTotals
  perSymbol : List PnLSymbol
deriving DecidableEq, Repr

/-- `findIndex` followed by `splice(index, 1)`: delete the first element
satisfying `p`, if any; a list with no match is returned unchanged. -/
def removeFirst (p : α → Bool) : List α → List α
  | [] => []
  | x :: xs => if p x then xs else x :: removeFirst p xs

/-- `findIndex` followed by either an in-place replacement of the matched
element by `combine` applied to it, or, when there is no match, a `push`
of `u` at the end of the list. -/
def upsertFirst (p : α → Bool) (combine : α → α) (u : α) : List α → List α
  | [] => [u]
  | x :: xs => if p x then combine x :: xs else x :: upsertFirst p combine u xs

/-- The JS object spread of `old` under `upd` used by the merges.  Every
`Position` field is required by the interface, so every field of the result
comes from `upd`. -/
def spreadPosition (old upd : Position) : Position :=
  { id := upd.id, symbol := upd.symbol, side := upd.side, qty := upd.qty,
    avg_price := upd.avg_price, ltp := upd.ltp, unrealized := upd.unrealized }

/-- Spread of two `Order` values; all fields required, all taken from `upd`. -/
def spreadOrder (old upd : Order) : Order :=
  { order_id := upd.order_id, symbol := upd.symbol, side := upd.side,
    type := upd.type, price := upd.price, qty := upd.qty,
    filled_qty := upd.filled_qty, status := upd.status,
    placed_at := upd.placed_at }

/-- Spread of two `Holding` values; all fields required, all taken from `upd`. -/
def spreadHolding (old upd : Holding) : Holding :=
  { isin := upd.isin, symbol := upd.symbol, qty := upd.qty,
    avg_price := upd.avg_price, ltp := upd.ltp, value := upd.value,
    day_change := upd.day_change }

/-- Spread of two `Trade` values; all fields required, all taken from `upd`. -/
def spreadTrade (old upd : Trade) : Trade :=
  { trade_id := upd.trade_id, order_id := upd.order_id, symbol := upd.symbol,
    side := upd.side, price := upd.price, qty := upd.qty, time := upd.time }

namespace DataMerger

/-- `DataMerger.mergePositions`: copy the current list, delete the first
position whose id matches each entry of `changes.remove`, then for each
entity of `changes.upsert` replace the first position with the same id by
the spread merge, or push it when absent. -/
def mergePositions (current : List Position) (delta : PositionsDelta) : List Position :=
  let afterRemove := delta.changes.remove.foldl
    (fun result i => removeFirst (fun pos => pos.id == i) result) current
  delta.changes.upsert.foldl
    (fun result upd =>
      upsertFirst (fun pos => pos.id == upd.id) (fun old => spreadPosition old upd) upd result)
    afterRemove

/-- `DataMerger.mergeOrders`: same algorithm keyed by `order_id`. -/
def mergeOrders (current : List Order) (delta : OrdersDelta) : List Order :=
  let afterRemove := delta.changes.remove.foldl
    (fun result i => removeFirst (fun o => o.order_id == i) result) current
  delta.changes.upsert.foldl
    (fun result upd =>
      upsertFirst (fun o => o.order_id == upd.order_id) (fun old => spreadOrder old upd) upd result)
    afterRemove

/-- `DataMerger.mergeHoldings`: same algorithm keyed by `isin`. -/
def mergeHoldings (current : List Holding) (delta : HoldingsDelta) : List Holding :=
  let afterRemove := delta.changes.remove.foldl
    (fun result i => removeFirst (fun h => h.isin == i) result) current
  delta.changes.upsert.foldl
    (fun result upd =>
      upsertFirst (fun h => h.isin == upd.isin) (fun old => spreadHolding old upd) upd result)
    afterRemove

/-- `DataMerger.mergeTrades`: same algorithm keyed by `trade_id`. -/
def mergeTrades (current : List Trade) (delta : TradesDelta) : List Trade :=
  let afterRemove := delta.changes.remove.foldl
    (fun result i => removeFirst (fun t => t.trade_id == i) result) current
  delta.changes.upsert.foldl
    (fun result upd =>
      upsertFirst (fun t => t.trade_id == upd.trade_id) (fun old => spreadTrade old upd) upd result)
    afterRemove

/-- `DataMerger.updatePnL`.  The source stamps `updatedAt` with
`new Date().toISOString()`; that read of the ambient clock is made an
explicit argument `now` of the embedding. -/
def updatePnL (current : PnL) (update : PnLUpdate) (now : String) : PnL :=
  { current with
    totals := update.totals,
    perSymbol := update.perSymbol,
    updatedAt := now }

/-- `DataMerger.hasChanged`.  The JS `Set` of mapped id values is modelled by
the deduplicated list of keys: `Set.size` is the dedup length and `Set.has`
is list membership; the final loop returns `true` as soon as an old id is
missing from the new ids. -/
def hasChanged [DecidableEq κ] (oldData newData : List α) (idField : α → κ) : Bool :=
  if oldData.length ≠ newData.length then true
  else
    let oldIds := (oldData.map idField).dedup
    let newIds := (newData.map idField).dedup
    if oldIds.length ≠ newIds.length then true
    else oldIds.any (fun i => decide (i ∉ newIds))

end DataMerger

/-- Connection states of the client (`ConnectionState` in client.ts). -/
inductive ConnState
  | connecting
  | connected
  | reconnecting
  | offline
deriving DecidableEq, Repr

/-- WebSocket transport ready states; `opened` embeds `WebSocket.OPEN`. -/
inductive ReadyState
  | connecting
  | opened
  | closing
  | closed
deriving DecidableEq, Repr, BEq

/-- The transport object: all the client reads from `this.ws` is its
`readyState`. -/
structure Socket where
  readyState : ReadyState
deriving DecidableEq, Repr

/-- The mutable fields of `WebSocketClient` (client.ts).  The timer handles
are modelled by the pending delay (`reconnectTimeout`) and a flag
(`heartbeatActive`). -/
structure ClientState where
  ws : Option Socket
  reconnectAttempts : Nat
  maxReconnectAttempts : Nat
  reconnectDelay : Nat
  heartbeatActive : Bool
  reconnectTimeout : Option Nat
  connectionState : ConnState
deriving DecidableEq, Repr

/-- Field initializers of `WebSocketClient`:
`reconnectAttempts = 0`, `maxReconnectAttempts = 10`,
`reconnectDelay = 1000`, `connectionState = OFFLINE`. -/
def initialClient : ClientState :=
  { ws := none, reconnectAttempts := 0, maxReconnectAttempts := 10,
    reconnectDelay := 1000, heartbeatActive := false,
    reconnectTimeout := none, connectionState := ConnState.offline }

/-- The guard expression `this.ws?.readyState === WebSocket.OPEN`. -/
def wsIsOpen : Option Socket → Bool
  | some sock => sock.readyState == ReadyState.opened
  | none => false

/-- `WebSocketClient.connect`.  Returns the new state together with whether a
new `WebSocket` transport was constructed.  The early return fires only when
the current socket is OPEN; otherwise the state is set to `connecting` and a
fresh transport (in ready state CONNECTING) replaces `this.ws`.  The
constructor is modelled as succeeding; the `catch` branch of the source
handles only a synchronous constructor throw. -/
def wsConnect (s : ClientState) : ClientState × Bool :=
  if wsIsOpen s.ws then (s, false)
  else
    ({ s with
        connectionState := ConnState.connecting,
        ws := some { readyState := ReadyState.connecting } }, true)

/-- `WebSocketClient.scheduleReconnect`.  Returns the new state and the delay
of the reconnect timer when one was scheduled: at or above the attempt cap
the state becomes `offline` and nothing is scheduled; below it the attempt
counter is incremented and the timer delay is
`min(reconnectDelay * 2 ^ (attempts - 1), 30000)` computed with the
incremented counter. -/
def scheduleReconnect (s : ClientState) : ClientState × Option Nat :=
  if s.reconnectAttempts ≥ s.maxReconnectAttempts then
    ({ s with connectionState := ConnState.offline }, none)
  else
    let attempts := s.reconnectAttempts + 1
    let delay := min (s.reconnectDelay * 2 ^ (attempts - 1)) 30000
    ({ s with reconnectAttempts := attempts, reconnectTimeout := some delay },
     some delay)

/-- The state part of `scheduleReconnect`, for iterating it. -/
def scheduleStep (s : ClientState) : ClientState :=
  (scheduleReconnect s).1

/-- The channel list hard-coded in `subscribeToAllChannels` and
`sendResume`. -/
def allChannels : List String :=
  ["positions", "orders", "holdings", "trades", "pnl"]

/-- The resume message built by `WebSocketClient.sendResume`. -/
structure ResumeMsg where
  lastSeq : Nat
  channels : List String
deriving DecidableEq, Repr

/-- The state of the `Positions` component (the `positions.delta` consumer):
`livePositions` and `lastSequence` are its `useState` cells,
`positionsData` the snapshot held by the `usePositions` query, and
`connectionState` the state reported by the `useWebSocket` hook. -/
structure PositionsView where
  livePositions : List Position
  lastSequence : Nat
  positionsData : Option (List Position)
  connectionState : ConnState
deriving DecidableEq, Repr

/-- The `positions.delta` branch of the `useWebSocket` message callback in
the `Positions` component: a delta with `seq > lastSequence` is merged into
`livePositions` when that list is non-empty, otherwise into the snapshot
when one is loaded, and `lastSequence` is set to `seq` in every branch of
the outer guard; any other delta is ignored. -/
def handlePositionsDelta (s : PositionsView) (update : PositionsDelta) : PositionsView :=
  if update.seq > s.lastSequence then
    if s.livePositions.length > 0 then
      { s with
        livePositions := DataMerger.mergePositions s.livePositions update,
        lastSequence := update.seq }
    else
      match s.positionsData with
      | some base =>
          { s with
            livePositions := DataMerger.mergePositions base update,
            lastSequence := update.seq }
      | none => { s with lastSequence := update.seq }
  else s

/-- Events observed by the `Positions` component: a connection state change
reported by the hook, an inbound `positions.delta` message, and the arrival
of a snapshot from the query. -/
inductive ViewEvent
  | connChange (c : ConnState)
  | positionsDelta (d : PositionsDelta)
  | snapshotLoaded (data : List Position)
deriving Repr

/-- One event step of the `Positions` component.  `snapshotLoaded` models the
query delivering data followed by the effect that copies it into
`livePositions` when that list is still empty. -/
def stepView (s : PositionsView) : ViewEvent → PositionsView
  | ViewEvent.connChange c => { s with connectionState := c }
  | ViewEvent.positionsDelta d => handlePositionsDelta s d
  | ViewEvent.snapshotLoaded data =>
      let s1 := { s with positionsData := some data }
      if s1.livePositions.length == 0 then { s1 with livePositions := data }
      else s1

/-- The resume effect of the `Positions` component: a React effect with
dependency array `(connectionState, lastSequence)` (its third dependency,
`sendResume`, is a stable callback).  It runs after a step in which one of
the dependencies changed, and calls `sendResume lastSequence` exactly when
`connectionState = connected` and `lastSequence > 0`; `sendResume` builds
the message with the full channel list. -/
def resumeEffect (old new : PositionsView) : List ResumeMsg :=
  if (old.connectionState ≠ new.connectionState ∨ old.lastSequence ≠ new.lastSequence)
      ∧ new.connectionState = ConnState.connected ∧ new.lastSequence > 0 then
    [{ lastSeq := new.lastSequence, channels := allChannels }]
  else []

/-- One event step together with the resume messages the effect emits. -/
def stepWithResume (s : PositionsView) (e : ViewEvent) : PositionsView × List ResumeMsg :=
  let s' := stepView s e
  (s', resumeEffect s s')

/-- Run the component over a list of events, collecting the emitted resume
requests in order. -/
def runView (s : PositionsView) : List ViewEvent → PositionsView × List ResumeMsg
  | [] => (s, [])
  | e :: es =>
      let p := stepWithResume s e
      let q := runView p.1 es
      (q.1, p.2 ++ q.2)

/-- The API envelope (interface `APIResponse<T>` in client.ts); the optional
error object is reduced to its message, the only part the fetch reads. -/
structure APIResponse (T : Type) where
  ok : Bool
  data : T
  errorMessage : Option String
  trace_id : Option String
deriving Repr

/-- The HTTP response consumed by `api.fetch`: its `ok` flag, status line and
parsed JSON body; `body = none` models a body on which `response.json()`
throws. -/
structure HttpResponse (T : Type) where
  ok : Bool
  status : Nat
  statusText : String
  body : Option (APIResponse T)
deriving Repr

/-- The distinct throw sites of `api.fetch`. -/
inductive FetchError
  | httpError (status : Nat) (statusText : String)
  | parseError
  | apiError (message : String)
deriving DecidableEq, Repr

/-- `api.fetch`: throw on a non-success HTTP response, throw when the body
fails to parse, throw when the parsed envelope has `ok = false` (with the
envelope's error message, defaulted to "API request failed"), and only
otherwise return `data.data`. -/
def apiFetch (resp : HttpResponse T) : Except FetchError T :=
  if ¬ resp.ok then
    Except.error (FetchError.httpError resp.status resp.statusText)
  else
    match resp.body with
    | none => Except.error FetchError.parseError
    | some env =>
        if ¬ env.ok then
          Except.error (FetchError.apiError (env.errorMessage.getD "API request failed"))
        else Except.ok env.data

/-- A concrete baseline position, used by witnesses and counterexamples. -/
def posP1 : Position :=
  { id := "P1", symbol := "RELIANCE", side := "LONG", qty := 100,
    avg_price := 2500, ltp := 2510, unrealized := 1000 }

/-- The same position with an updated quantity. -/
def posP1Upd : Position := { posP1 with qty := 150 }

/-- A delta whose change set upserts `posP1Upd`, at a given sequence. -/
def upsertDelta (s : Nat) : PositionsDelta :=
  { type := "positions.delta", seq := s, serverTime := "t0",
    changes := { upsert := [posP1Upd], remove := [] } }

/-- A delta whose change set removes key P1, at a given sequence. -/
def removeDelta (s : Nat) : PositionsDelta :=
  { type := "positions.delta", seq := s, serverTime := "t0",
    changes := { upsert := [], remove := ["P1"] } }

/-- A delta carrying key P1 in both `remove` and `upsert`. -/
def bothDelta (s : Nat) : PositionsDelta :=
  { type := "positions.delta", seq := s, serverTime := "t0",
    changes := { upsert := [posP1Upd], remove := ["P1"] } }

/-- A connected `Positions` component holding `posP1` with
`lastSequence = 5`. -/
def viewConn5 : PositionsView :=
  { livePositions := [posP1], lastSequence := 5, positionsData := none,
    connectionState := ConnState.connected }

/-- A freshly mounted `Positions` component: empty live list, no sequence
applied yet, snapshot already delivered by the query, connection still
offline. -/
def viewFresh : PositionsView :=
  { livePositions := [], lastSequence := 0, positionsData := some [posP1],
    connectionState := ConnState.offline }

/-- One reconnect cycle followed by two applied deltas. -/
def traceC5 : List ViewEvent :=
  [ViewEvent.connChange ConnState.connected,
   ViewEvent.positionsDelta (upsertDelta 1),
   ViewEvent.positionsDelta (removeDelta 2)]

/-- Client state after three failed reconnect attempts. -/
def clientAfter3 : ClientState := { initialClient with reconnectAttempts := 3 }

/-- Client state whose attempt counter has reached the cap. -/
def clientCapped : ClientState := { initialClient with reconnectAttempts := 10 }

/-- Client state in the middle of a connection attempt: the transport
exists and is in ready state CONNECTING. -/
def clientConnecting : ClientState :=
  { initialClient with
    ws := some { readyState := ReadyState.connecting },
    connectionState := ConnState.connecting }

/-- Client state with an OPEN transport. -/
def clientOpenSock : ClientState :=
  { initialClient with
    ws := some { readyState := ReadyState.opened },
    connectionState := ConnState.connected }

/-- A concrete P&L aggregate. -/
def pnlBase : PnL :=
  { totals := { realized := 0, unrealized := 0, day := 0, currency := "INR" },
    perSymbol := [], updatedAt := "2025-01-01T00:00:00.000Z",
    tradingDay := "2025-01-01" }

/-- A concrete P&L update message. -/
def pnlUpd : PnLUpdate :=
  { type := "pnl.update", seq := 1,
    totals := { realized := 10, unrealized := 20, day := 30, currency := "INR" },
    perSymbol := [] }

/-- A failed HTTP response (status 500), body unparseable. -/
def resp500 : HttpResponse (List Position) :=
  { ok := false, status := 500, statusText := "Internal Server Error",
    body := none }

/-- A successful HTTP response whose well-formed envelope reports
`ok = false` with an empty data field. -/
def respEnvNotOk : HttpResponse (List Position) :=
  { ok := true, status := 200, statusText := "OK",
    body := some { ok := false, data := [], errorMessage := some "DHAN-500",
                   trace_id := some "tr1" } }

/-- A successful HTTP response with an `ok = true` envelope. -/
def respEnvOk : HttpResponse (List Position) :=
  { ok := true, status := 200, statusText := "OK",
    body := some { ok := true, data := [posP1], errorMessage := none,
                   trace_id := some "tr2" } }

theorem handlePositionsDelta_drop (s : PositionsView) (d : PositionsDelta)
    (h : d.seq ≤ s.lastSequence) : handlePositionsDelta s d = s := by
  unfold handlePositionsDelta
  rw [if_neg (Nat.not_lt.mpr h)]

theorem handlePositionsDelta_lastSeq (s : PositionsView) (d : PositionsDelta)
    (h : s.lastSequence < d.seq) :
    (handlePositionsDelta s d).lastSequence = d.seq := by
  unfold handlePositionsDelta
  rw [if_pos h]
  split
  · rfl
  · split <;> rfl

theorem handlePositionsDelta_conn (s : PositionsView) (d : PositionsDelta) :
    (handlePositionsDelta s d).connectionState = s.connectionState := by
  unfold handlePositionsDelta
  split
  · split
    · rfl
    · split <;> rfl
  · rfl

/-- Claim C1, counterexample: with `last_applied_seq = 5` and live collection
`[posP1]`, the delta with `seq = 7` (a gap: `7 > 5 + 1`) DOES mutate the View
State collection and advances `last_applied_seq` to 7, and the resume message
emitted afterwards carries `lastSeq = 7`, not 5 — so the claimed gap
rejection ("must not mutate state and must trigger a resume with
`lastSeq = n`") is false of the code. -/
theorem c1_gap_counterexample :
    (handlePositionsDelta viewConn5 (upsertDelta 7)).livePositions ≠ viewConn5.livePositions
      ∧ (handlePositionsDelta viewConn5 (upsertDelta 7)).lastSequence = 7
      ∧ (stepWithResume viewConn5 (ViewEvent.positionsDelta (upsertDelta 7))).2
          = [{ lastSeq := 7, channels := allChannels }] := by
  refine ⟨by decide, rfl, rfl⟩

/-- Claim C1, amended: the `positions.delta` handler performs no gap check —
EVERY delta with `seq > last_applied_seq` (whether `n+1` or `n+2` or more)
mutates the collection via the merge (when the live collection is non-empty)
and advances `last_applied_seq` to the delta's own `seq`.  In particular a
delta with `seq = n+1` mutates state and advances `last_applied_seq` to
`n+1`, as the original claim says, but a delta with `seq = n+2` is treated
identically instead of being rejected. -/
theorem c1_gap_amended (s : PositionsView) (d : PositionsDelta)
    (h : s.lastSequence < d.seq) (hne : s.livePositions ≠ []) :
    (handlePositionsDelta s d).livePositions
        = DataMerger.mergePositions s.livePositions d
      ∧ (handlePositionsDelta s d).lastSequence = d.seq := by
  unfold handlePositionsDelta
  rw [if_pos h, if_pos (List.length_pos.mpr hne)]
  exact ⟨rfl, rfl⟩

/-- Witness for the amended claim C1 at the gap input `seq = 7` over
`last_applied_seq = 5`. -/
theorem c1_gap_amended_witness :
    viewConn5.lastSequence < (upsertDelta 7).seq
      ∧ viewConn5.livePositions ≠ []
      ∧ (handlePositionsDelta viewConn5 (upsertDelta 7)).livePositions
          = DataMerger.mergePositions viewConn5.livePositions (upsertDelta 7)
      ∧ (handlePositionsDelta viewConn5 (upsertDelta 7)).lastSequence = 7 :=
  ⟨by decide, by decide,
   (c1_gap_amended viewConn5 (upsertDelta 7) (by decide) (by decide)).1,
   (c1_gap_amended viewConn5 (upsertDelta 7) (by decide) (by decide)).2⟩

/-- Claim C2: a delta whose `seq` is at most the last applied sequence
number is dropped as a duplicate — the handler returns the state completely
unchanged (collection and `last_applied_seq` alike) — and applying the same
delta twice to identical starting state equals applying it once. -/
theorem c2_duplicate_drop :
    (∀ (s : PositionsView) (d : PositionsDelta),
        d.seq ≤ s.lastSequence → handlePositionsDelta s d = s)
      ∧ ∀ (s : PositionsView) (d : PositionsDelta),
          handlePositionsDelta (handlePositionsDelta s d) d
            = handlePositionsDelta s d := by
  refine ⟨fun s d h => handlePositionsDelta_drop s d h, fun s d => ?_⟩
  by_cases h : s.lastSequence < d.seq
  · exact handlePositionsDelta_drop _ d
      (le_of_eq (handlePositionsDelta_lastSeq s d h).symm)
  · rw [handlePositionsDelta_drop s d (Nat.not_lt.mp h)]
    exact handlePositionsDelta_drop s d (Nat.not_lt.mp h)

/-- Witness for claim C2 at the concrete duplicate `seq = 5` against
`last_applied_seq = 5` (scenario 3 of the spec). -/
theorem c2_duplicate_drop_witness :
    (upsertDelta 5).seq ≤ viewConn5.lastSequence
      ∧ handlePositionsDelta viewConn5 (upsertDelta 5) = viewConn5 :=
  ⟨by decide, c2_duplicate_drop.1 viewConn5 (upsertDelta 5) (by decide)⟩

/-- Claim C6, counterexample: calling `connect()` while a connection attempt
is in progress (the socket exists with ready state CONNECTING) is NOT a
no-op — the guard only tests for OPEN, so a second transport is constructed
(the Boolean in the result) and `this.ws` is replaced by it. -/
theorem c6_connect_counterexample :
    (wsConnect clientConnecting).2 = true
      ∧ (wsConnect clientConnecting).1.ws
          = some { readyState := ReadyState.connecting } := by
  exact ⟨rfl, rfl⟩

/-- Claim C6, amended: `connect()` is a no-op exactly when the current
socket is OPEN; in every other situation — including while a previous
connection attempt is still in CONNECTING state — it transitions the
connection state to `connecting` and constructs a fresh transport that
replaces the previous one.  Idempotence therefore holds for the open case
only. -/
theorem c6_connect_amended :
    (∀ s : ClientState, wsIsOpen s.ws = true → wsConnect s = (s, false))
      ∧ ∀ s : ClientState, wsIsOpen s.ws = false →
          (wsConnect s).2 = true
            ∧ (wsConnect s).1.connectionState = ConnState.connecting
            ∧ (wsConnect s).1.ws = some { readyState := ReadyState.connecting } := by
  constructor
  · intro s h
    unfold wsConnect
    rw [if_pos h]
  · intro s h
    unfold wsConnect
    rw [if_neg (by simp [h])]
    exact ⟨rfl, rfl, rfl⟩

/-- Witness for the amended claim C6: the open-socket state is left intact
with no new transport, the connecting-socket state gets a second
transport. -/
theorem c6_connect_amended_witness :
    wsIsOpen clientOpenSock.ws = true
      ∧ wsConnect clientOpenSock = (clientOpenSock, false)
      ∧ wsIsOpen clientConnecting.ws = false
      ∧ (wsConnect clientConnecting).2 = true :=
  ⟨by decide, c6_connect_amended.1 clientOpenSock (by decide), by decide,
   (c6_connect_amended.2 clientConnecting (by decide)).1⟩

/-- Claim C7: the computed reconnect delay
`min(reconnectDelay * 2 ^ (attempt - 1), 30000)` is non-decreasing in the
attempt number and capped at the 30000 ms ceiling; below the attempt cap
`scheduleReconnect` schedules exactly that delay and increments the attempt
counter; and in the concrete scenario of 3 already-failed attempts the 4th
attempt is scheduled with delay `min(1000 * 2 ^ 3, 30000)`. -/
theorem c7_backoff :
    (∀ base j k : Nat, j ≤ k →
        min (base * 2 ^ j) 30000 ≤ min (base * 2 ^ k) 30000)
      ∧ (∀ base j : Nat, min (base * 2 ^ j) 30000 ≤ 30000)
      ∧ (∀ s : ClientState, s.reconnectAttempts < s.maxReconnectAttempts →
          (scheduleReconnect s).2
              = some (min (s.reconnectDelay * 2 ^ s.reconnectAttempts) 30000)
            ∧ (scheduleReconnect s).1.reconnectAttempts = s.reconnectAttempts + 1)
      ∧ (scheduleReconnect clientAfter3).2 = some (min (1000 * 2 ^ 3) 30000)
      ∧ (scheduleReconnect clientAfter3).1.reconnectAttempts = 4 := by
  refine ⟨?_, ?_, ?_, rfl, rfl⟩
  · intro base j k h
    exact min_le_min
      (Nat.mul_le_mul_left base (Nat.pow_le_pow_right (by norm_num) h))
      (le_refl 30000)
  · intro base j
    exact min_le_right _ _
  · intro s h
    unfold scheduleReconnect
    rw [if_neg (Nat.not_le.mpr h)]
    exact ⟨rfl, rfl⟩

/-- Witness for claim C7 at concrete attempt numbers 2 ≤ 3 and at the
3-failed-attempts client state. -/
theorem c7_backoff_witness :
    2 ≤ 3
      ∧ min (1000 * 2 ^ 2) 30000 ≤ min (1000 * 2 ^ 3) 30000
      ∧ clientAfter3.reconnectAttempts < clientAfter3.maxReconnectAttempts
      ∧ (scheduleReconnect clientAfter3).2
          = some (min (clientAfter3.reconnectDelay * 2 ^ clientAfter3.reconnectAttempts) 30000) :=
  ⟨by decide, c7_backoff.1 1000 2 3 (by decide), by decide,
   (c7_backoff.2.2.1 clientAfter3 (by decide)).1⟩

theorem scheduleStep_capped (s : ClientState)
    (h : s.maxReconnectAttempts ≤ s.reconnectAttempts) :
    scheduleStep s = { s with connectionState := ConnState.offline } := by
  unfold scheduleStep scheduleReconnect
  rw [if_pos h]

theorem scheduleStep_iterate_capped (s : ClientState)
    (h : s.maxReconnectAttempts ≤ s.reconnectAttempts) :
    ∀ n : Nat, (scheduleStep^[n] s).reconnectAttempts = s.reconnectAttempts
      ∧ (scheduleStep^[n] s).maxReconnectAttempts = s.maxReconnectAttempts := by
  intro n
  induction n with
  | zero => exact ⟨rfl, rfl⟩
  | succ n ih =>
      rw [Function.iterate_succ_apply']
      rw [scheduleStep_capped _ (by rw [ih.1, ih.2]; exact h)]
      exact ⟨ih.1, ih.2⟩

/-- Claim C8: once the attempt counter has reached the cap, invoking the
reconnect scheduler transitions the connection state to `offline` and
schedules no timer, and the same remains true after any number of further
scheduler invocations — no reconnect attempt is ever scheduled again. -/
theorem c8_bounded_reconnect (s : ClientState)
    (h : s.maxReconnectAttempts ≤ s.reconnectAttempts) :
    (scheduleReconnect s).1.connectionState = ConnState.offline
      ∧ (scheduleReconnect s).2 = none
      ∧ ∀ n : Nat,
          (scheduleReconnect (scheduleStep^[n] s)).2 = none
            ∧ (scheduleReconnect (scheduleStep^[n] s)).1.connectionState
                = ConnState.offline := by
  have hstep : ∀ t : ClientState, t.maxReconnectAttempts ≤ t.reconnectAttempts →
      (scheduleReconnect t).1.connectionState = ConnState.offline
        ∧ (scheduleReconnect t).2 = none := by
    intro t ht
    unfold scheduleReconnect
    rw [if_pos ht]
    exact ⟨rfl, rfl⟩
  refine ⟨(hstep s h).1, (hstep s h).2, fun n => ?_⟩
  have hit := scheduleStep_iterate_capped s h n
  have hcap : (scheduleStep^[n] s).maxReconnectAttempts
      ≤ (scheduleStep^[n] s).reconnectAttempts := by
    rw [hit.1, hit.2]; exact h
  exact ⟨(hstep _ hcap).2, (hstep _ hcap).1⟩

/-- Witness for claim C8 at the capped client state (10 of 10 attempts),
including two further scheduler iterations. -/
theorem c8_bounded_reconnect_witness :
    clientCapped.maxReconnectAttempts ≤ clientCapped.reconnectAttempts
      ∧ (scheduleReconnect clientCapped).1.connectionState = ConnState.offline
      ∧ (scheduleReconnect (scheduleStep^[2] clientCapped)).2 = none :=
  ⟨by decide, (c8_bounded_reconnect clientCapped (by decide)).1,
   ((c8_bounded_reconnect clientCapped (by decide)).2.2 2).1⟩

/-- Claim C9: `api.fetch` fails with a typed error on every non-success HTTP
response and on every well-formed envelope with `ok = false`, and a value is
returned only when the HTTP response succeeded and the envelope reported
`ok = true` with exactly that data — an empty collection is never fabricated
out of a failure. -/
theorem c9_fetch_typed_failure :
    (∀ (T : Type) (resp : HttpResponse T), resp.ok = false →
        apiFetch resp
          = Except.error (FetchError.httpError resp.status resp.statusText))
      ∧ (∀ (T : Type) (resp : HttpResponse T) (env : APIResponse T),
          resp.body = some env → env.ok = false →
          ∃ e : FetchError, apiFetch resp = Except.error e)
      ∧ ∀ (T : Type) (resp : HttpResponse T) (d : T),
          apiFetch resp = Except.ok d →
          resp.ok = true
            ∧ ∃ env : APIResponse T,
                resp.body = some env ∧ env.ok = true ∧ env.data = d := by
  refine ⟨?_, ?_, ?_⟩
  · intro T resp h
    unfold apiFetch
    rw [if_pos (by simp [h])]
  · intro T resp env hbody henv
    unfold apiFetch
    cases hok : resp.ok with
    | false =>
        exact ⟨FetchError.httpError resp.status resp.statusText,
          by rw [if_pos (by simp [hok])]⟩
    | true =>
        rw [if_neg (by simp [hok]), hbody]
        refine ⟨FetchError.apiError (env.errorMessage.getD "API request failed"), ?_⟩
        simp [henv]
  · intro T resp d h
    unfold apiFetch at h
    cases hok : resp.ok with
    | false => rw [if_pos (by simp [hok])] at h; cases h
    | true =>
        rw [if_neg (by simp [hok])] at h
        cases hbody : resp.body with
        | none => rw [hbody] at h; cases h
        | some env =>
            rw [hbody] at h
            cases henv : env.ok with
            | false => simp [henv] at h
            | true =>
                simp [henv] at h
                exact ⟨rfl, env, rfl, henv, h⟩

/-- Witness for claim C9 at a concrete 500 response, a concrete `ok=false`
envelope, and a concrete successful envelope. -/
theorem c9_fetch_typed_failure_witness :
    resp500.ok = false
      ∧ apiFetch resp500
          = Except.error (FetchError.httpError 500 "Internal Server Error")
      ∧ (∃ e : FetchError, apiFetch respEnvNotOk = Except.error e)
      ∧ respEnvOk.ok = true :=
  ⟨rfl, c9_fetch_typed_failure.1 (List Position) resp500 rfl,
   c9_fetch_typed_failure.2.1 (List Position) respEnvNotOk
     { ok := false, data := [], errorMessage := some "DHAN-500",
       trace_id := some "tr1" } rfl rfl,
   (c9_fetch_typed_failure.2.2 (List Position) respEnvOk [posP1] rfl).1⟩

/-- Claim C4, counterexample: `DataMerger.updatePnL` is NOT a pure function
of `(current state, delta)` — it reads the ambient clock for the
`updatedAt` stamp, so two runs on equal inputs at different instants
produce different outputs. -/
theorem c4_purity_counterexample :
    DataMerger.updatePnL pnlBase pnlUpd "2025-01-01T00:00:00.000Z"
      ≠ DataMerger.updatePnL pnlBase pnlUpd "2025-01-01T00:00:01.000Z" := by
  decide

/-- Claim C4, amended: the four collection merges are pure functions of
`(current state, delta)` — equal inputs give equal outputs — while the P&L
update is pure only up to the `updatedAt` field: its output is completely
characterised as the delta's `totals` and `perSymbol`, the current state's
`tradingDay`, and the clock reading in `updatedAt`. -/
theorem c4_purity_amended :
    (∀ (c : PnL) (u : PnLUpdate) (now : String),
        DataMerger.updatePnL c u now
          = { totals := u.totals, perSymbol := u.perSymbol, updatedAt := now,
              tradingDay := c.tradingDay })
      ∧ (∀ (s s' : List Position) (d d' : PositionsDelta), s = s' → d = d' →
          DataMerger.mergePositions s d = DataMerger.mergePositions s' d')
      ∧ (∀ (s s' : List Order) (d d' : OrdersDelta), s = s' → d = d' →
          DataMerger.mergeOrders s d = DataMerger.mergeOrders s' d')
      ∧ (∀ (s s' : List Holding) (d d' : HoldingsDelta), s = s' → d = d' →
          DataMerger.mergeHoldings s d = DataMerger.mergeHoldings s' d')
      ∧ ∀ (s s' : List Trade) (d d' : TradesDelta), s = s' → d = d' →
          DataMerger.mergeTrades s d = DataMerger.mergeTrades s' d' := by
  refine ⟨fun c u now => rfl, ?_, ?_, ?_, ?_⟩ <;>
    · intro s s' d d' hs hd
      rw [hs, hd]

/-- Witness for the amended claim C4 at concrete P&L and positions
inputs. -/
theorem c4_purity_amended_witness :
    DataMerger.updatePnL pnlBase pnlUpd "t1"
        = { totals := pnlUpd.totals, perSymbol := pnlUpd.perSymbol,
            updatedAt := "t1", tradingDay := pnlBase.tradingDay }
      ∧ DataMerger.mergePositions [posP1] (upsertDelta 1)
          = DataMerger.mergePositions [posP1] (upsertDelta 1) :=
  ⟨c4_purity_amended.1 pnlBase pnlUpd "t1",
   c4_purity_amended.2.1 [posP1] [posP1] (upsertDelta 1) (upsertDelta 1) rfl rfl⟩

/-- Claim C5, counterexample: starting from a freshly mounted component with
a loaded snapshot, the trace "transition to connected, then two applied
deltas" emits TWO resume requests inside the single reconnect cycle — the
resume effect re-fires on every change of `lastSequence` while connected,
so resume requests ARE re-sent on subsequent messages, contradicting the
claimed exactly-one-resume-per-reconnect-cycle. -/
theorem c5_resume_counterexample :
    (runView viewFresh traceC5).2
      = [{ lastSeq := 1, channels := allChannels },
         { lastSeq := 2, channels := allChannels }] := by
  rfl

/-- Claim C5, amended: a resume request is sent after every step in which
one of the effect dependencies `(connectionState, lastSequence)` changed
while the new state is `connected` with `lastSequence > 0`: exactly one on
the transition to `connected` when at least one sequence number was
previously applied (carrying that sequence number and the full channel
set), but also one more after each delta applied while connected (carrying
the delta's sequence number).  Dropped (duplicate) deltas emit nothing, and
nothing is emitted while not connected or before any sequence was
applied. -/
theorem c5_resume_amended :
    (∀ s : PositionsView, s.connectionState ≠ ConnState.connected →
        0 < s.lastSequence →
        (stepWithResume s (ViewEvent.connChange ConnState.connected)).2
          = [{ lastSeq := s.lastSequence, channels := allChannels }])
      ∧ (∀ (s : PositionsView) (d : PositionsDelta),
          s.connectionState = ConnState.connected → s.lastSequence < d.seq →
          (stepWithResume s (ViewEvent.positionsDelta d)).2
            = [{ lastSeq := d.seq, channels := allChannels }])
      ∧ (∀ (s : PositionsView) (d : PositionsDelta), d.seq ≤ s.lastSequence →
          (stepWithResume s (ViewEvent.positionsDelta d)).2 = [])
      ∧ (∀ (s : PositionsView) (e : ViewEvent),
          (stepView s e).connectionState ≠ ConnState.connected →
          (stepWithResume s e).2 = [])
      ∧ ∀ (s : PositionsView) (e : ViewEvent),
          (stepView s e).lastSequence = 0 → (stepWithResume s e).2 = [] := by
  refine ⟨?_, ?_, ?_, ?_, ?_⟩
  · intro s h1 h2
    simp [stepWithResume, stepView, resumeEffect, h1, h2]
  · intro s d h1 h2
    have hconn := handlePositionsDelta_conn s d
    have hseq := handlePositionsDelta_lastSeq s d h2
    have hcond : (s.connectionState ≠ (handlePositionsDelta s d).connectionState
          ∨ s.lastSequence ≠ (handlePositionsDelta s d).lastSequence)
        ∧ (handlePositionsDelta s d).connectionState = ConnState.connected
        ∧ (handlePositionsDelta s d).lastSequence > 0 := by
      rw [hconn, hseq]
      exact ⟨Or.inr (Nat.ne_of_lt h2), h1,
        Nat.lt_of_le_of_lt (Nat.zero_le _) h2⟩
    simp only [stepWithResume, stepView, resumeEffect]
    rw [if_pos hcond, hseq]
  · intro s d h
    have hdrop := handlePositionsDelta_drop s d h
    simp [stepWithResume, stepView, resumeEffect, hdrop]
  · intro s e h
    simp only [stepWithResume, resumeEffect]
    rw [if_neg (fun hcond => h hcond.2.1)]
  · intro s e h
    simp only [stepWithResume, resumeEffect]
    rw [if_neg (fun hcond => by
      rw [h] at hcond
      exact Nat.lt_irrefl 0 hcond.2.2)]

/-- Witness for the amended claim C5: one resume on the reconnect
transition with a previously applied sequence, none on a dropped
duplicate. -/
theorem c5_resume_amended_witness :
    viewFresh.connectionState ≠ ConnState.connected
      ∧ 0 < 4
      ∧ (stepWithResume { viewFresh with lastSequence := 4 }
            (ViewEvent.connChange ConnState.connected)).2
          = [{ lastSeq := 4, channels := allChannels }]
      ∧ (upsertDelta 5).seq ≤ viewConn5.lastSequence
      ∧ (stepWithResume viewConn5 (ViewEvent.positionsDelta (upsertDelta 5))).2 = [] :=
  ⟨by decide, by decide,
   c5_resume_amended.1 { viewFresh with lastSequence := 4 } (by decide) (by decide),
   by decide,
   c5_resume_amended.2.2.1 viewConn5 (upsertDelta 5) (by decide)⟩

theorem mem_upsertFirst (p : α → Bool) (combine : α → α) (u : α)
    (hc : ∀ x, combine x = u) (l : List α) :
    u ∈ upsertFirst p combine u l := by
  induction l with
  | nil => simp [upsertFirst]
  | cons x xs ih =>
      cases hp : p x with
      | true => simp [upsertFirst, hp, hc x]
      | false =>
          simp only [upsertFirst, hp, Bool.false_eq_true, if_false,
            List.mem_cons]
          exact Or.inr ih

theorem mem_upsertFirst_of_mem (p : α → Bool) (combine : α → α) (u a : α)
    (ha : p a = false) (l : List α) (hmem : a ∈ l) :
    a ∈ upsertFirst p combine u l := by
  induction l with
  | nil => cases hmem
  | cons x xs ih =>
      cases hp : p x with
      | true =>
          simp only [upsertFirst, hp, if_true, List.mem_cons]
          rcases List.mem_cons.mp hmem with heq | htail
          · rw [heq] at ha
            rw [ha] at hp
            cases hp
          · exact Or.inr htail
      | false =>
          simp only [upsertFirst, hp, Bool.false_eq_true, if_false,
            List.mem_cons]
          rcases List.mem_cons.mp hmem with heq | htail
          · exact Or.inl heq
          · exact Or.inr (ih htail)

theorem mem_foldl_upsert_of_mem (key : α → String) (spread : α → α → α)
    (hspread : ∀ old upd, spread old upd = upd) (u : α) (us : List α)
    (huniq : ∀ v ∈ us, key v = key u → v = u) (init : List α)
    (hmem : u ∈ init) :
    u ∈ us.foldl
      (fun r v => upsertFirst (fun x => key x == key v) (fun old => spread old v) v r)
      init := by
  induction us generalizing init with
  | nil => simpa using hmem
  | cons v rest ih =>
      simp only [List.foldl_cons]
      apply ih (fun w hw hk => huniq w (List.mem_cons_of_mem v hw) hk)
      by_cases hkv : key v = key u
      · have hv : v = u := huniq v (List.mem_cons_self v rest) hkv
        rw [hv]
        exact mem_upsertFirst _ _ u (fun x => hspread x u) init
      · apply mem_upsertFirst_of_mem _ _ _ _ ?_ init hmem
        exact beq_eq_false_iff_ne.mpr (fun h => hkv h.symm)

theorem mem_foldl_upsert (key : α → String) (spread : α → α → α)
    (hspread : ∀ old upd, spread old upd = upd) (u : α) (us : List α)
    (hu : u ∈ us) (huniq : ∀ v ∈ us, key v = key u → v = u) (init : List α) :
    u ∈ us.foldl
      (fun r v => upsertFirst (fun x => key x == key v) (fun old => spread old v) v r)
      init := by
  induction us generalizing init with
  | nil => cases hu
  | cons v rest ih =>
      simp only [List.foldl_cons]
      rcases List.mem_cons.mp hu with heq | htail
      · apply mem_foldl_upsert_of_mem key spread hspread u rest
          (fun w hw hk => huniq w (List.mem_cons_of_mem v hw) hk)
        rw [heq]
        exact mem_upsertFirst _ _ v (fun x => hspread x v) init
      · exact ih htail (fun w hw hk => huniq w (List.mem_cons_of_mem v hw) hk) _

theorem removeFirst_sublist (p : α → Bool) (l : List α) :
    (removeFirst p l).Sublist l := by
  induction l with
  | nil => simp [removeFirst]
  | cons x xs ih =>
      cases hp : p x with
      | true =>
          simp only [removeFirst, hp, if_true]
          exact List.sublist_cons_self x xs
      | false =>
          simp only [removeFirst, hp, Bool.false_eq_true, if_false]
          exact List.Sublist.cons₂ x ih

theorem mem_of_mem_removeFirst (p : α → Bool) (l : List α) (a : α)
    (h : a ∈ removeFirst p l) : a ∈ l :=
  (removeFirst_sublist p l).mem h

theorem removeFirst_no_key (key : α → String) (k : String) (l : List α)
    (hnd : (l.map key).Nodup) :
    ∀ x ∈ removeFirst (fun y => key y == k) l, key x ≠ k := by
  induction l with
  | nil => simp [removeFirst]
  | cons y ys ih =>
      rw [List.map_cons] at hnd
      have hy := (List.nodup_cons.mp hnd).1
      have hnd1 := (List.nodup_cons.mp hnd).2
      cases hp : (key y == k) with
      | true =>
          simp only [removeFirst, hp, if_true]
          intro x hx hxk
          apply hy
          rw [beq_iff_eq.mp hp, ← hxk]
          exact List.mem_map_of_mem key hx
      | false =>
          simp only [removeFirst, hp, Bool.false_eq_true, if_false]
          intro x hx
          rcases List.mem_cons.mp hx with heq | htail
          · rw [heq]
            exact beq_eq_false_iff_ne.mp hp
          · exact ih hnd1 x htail

theorem mem_of_mem_foldl_remove (key : α → String) (ids : List String)
    (init : List α) (a : α)
    (h : a ∈ ids.foldl (fun r i => removeFirst (fun y => key y == i) r) init) :
    a ∈ init := by
  induction ids generalizing init with
  | nil => simpa using h
  | cons i rest ih =>
      simp only [List.foldl_cons] at h
      exact mem_of_mem_removeFirst _ _ a (ih _ h)

theorem foldl_remove_no_key (key : α → String) (k : String) (ids : List String)
    (hk : k ∈ ids) (init : List α) (hnd : (init.map key).Nodup) :
    ∀ x ∈ ids.foldl (fun r i => removeFirst (fun y => key y == i) r) init,
      key x ≠ k := by
  induction ids generalizing init with
  | nil => cases hk
  | cons i rest ih =>
      simp only [List.foldl_cons]
      rcases List.mem_cons.mp hk with heq | htail
      · intro x hx
        apply removeFirst_no_key key k init hnd x
        rw [heq]
        exact mem_of_mem_foldl_remove key rest _ x hx
      · intro x hx
        have hnd2 : ((removeFirst (fun y => key y == i) init).map key).Nodup :=
          hnd.sublist ((removeFirst_sublist _ init).map key)
        exact ih htail _ hnd2 x hx

theorem upsertFirst_no_key (key : α → String) (spread : α → α → α)
    (hspread : ∀ old upd, spread old upd = upd) (k : String) (u : α)
    (hu : key u ≠ k) (l : List α) (hl : ∀ x ∈ l, key x ≠ k) :
    ∀ x ∈ upsertFirst (fun y => key y == key u) (fun old => spread old u) u l,
      key x ≠ k := by
  induction l with
  | nil =>
      intro x hx
      simp only [upsertFirst, List.mem_singleton] at hx
      rw [hx]
      exact hu
  | cons y ys ih =>
      cases hp : (key y == key u) with
      | true =>
          simp only [upsertFirst, hp, if_true]
          intro x hx
          rcases List.mem_cons.mp hx with heq | htail
          · rw [heq, hspread y u]
            exact hu
          · exact hl x (List.mem_cons_of_mem y htail)
      | false =>
          simp only [upsertFirst, hp, Bool.false_eq_true, if_false]
          intro x hx
          rcases List.mem_cons.mp hx with heq | htail
          · rw [heq]
            exact hl y (List.mem_cons_self y ys)
          · exact ih (fun w hw => hl w (List.mem_cons_of_mem y hw)) x htail

theorem foldl_upsert_no_key (key : α → String) (spread : α → α → α)
    (hspread : ∀ old upd, spread old upd = upd) (k : String) (us : List α)
    (hus : ∀ u ∈ us, key u ≠ k) (init : List α)
    (hinit : ∀ x ∈ init, key x ≠ k) :
    ∀ x ∈ us.foldl
        (fun r v => upsertFirst (fun x => key x == key v) (fun old => spread old v) v r)
        init,
      key x ≠ k := by
  induction us generalizing init with
  | nil => simpa using hinit
  | cons v rest ih =>
      simp only [List.foldl_cons]
      exact ih (fun w hw => hus w (List.mem_cons_of_mem v hw)) _
        (upsertFirst_no_key key spread hspread k v
          (hus v (List.mem_cons_self v rest)) init hinit)

/-- Claim C3: the merge deletes removed keys first and upserts afterwards,
so upsert wins.  Concretely: (1) on a collection with no duplicate ids, a
key listed in `changes.remove` and not re-introduced by `changes.upsert` is
absent from the merged collection (absence before removal is not an error —
the statement has no presence hypothesis); (2) any entity of
`changes.upsert` that is the unique upsert for its key — in particular, one
whose key also appears in `changes.remove` — is present in the merged
collection, whether it replaced an existing same-key entity (the spread
merge in which every new field wins) or was inserted as new; (3)-(5) the
same upsert-wins property for the orders, holdings and trades merges. -/
theorem c3_merge_remove_then_upsert :
    (∀ (current : List Position) (delta : PositionsDelta) (k : String),
        (current.map Position.id).Nodup →
        k ∈ delta.changes.remove →
        (∀ u ∈ delta.changes.upsert, u.id ≠ k) →
        ∀ x ∈ DataMerger.mergePositions current delta, x.id ≠ k)
      ∧ (∀ (current : List Position) (delta : PositionsDelta) (u : Position),
          u ∈ delta.changes.upsert →
          (∀ v ∈ delta.changes.upsert, v.id = u.id → v = u) →
          u ∈ DataMerger.mergePositions current delta)
      ∧ (∀ (current : List Order) (delta : OrdersDelta) (u : Order),
          u ∈ delta.changes.upsert →
          (∀ v ∈ delta.changes.upsert, v.order_id = u.order_id → v = u) →
          u ∈ DataMerger.mergeOrders current delta)
      ∧ (∀ (current : List Holding) (delta : HoldingsDelta) (u : Holding),
          u ∈ delta.changes.upsert →
          (∀ v ∈ delta.changes.upsert, v.isin = u.isin → v = u) →
          u ∈ DataMerger.mergeHoldings current delta)
      ∧ ∀ (current : List Trade) (delta : TradesDelta) (u : Trade),
          u ∈ delta.changes.upsert →
          (∀ v ∈ delta.changes.upsert, v.trade_id = u.trade_id → v = u) →
          u ∈ DataMerger.mergeTrades current delta := by
  refine ⟨?_, ?_, ?_, ?_, ?_⟩
  · intro current delta k hnd hkrem hup x hx
    exact foldl_upsert_no_key Position.id spreadPosition (fun o v => rfl) k
      delta.changes.upsert hup _
      (foldl_remove_no_key Position.id k delta.changes.remove hkrem current hnd)
      x hx
  · intro current delta u hu huniq
    exact mem_foldl_upsert Position.id spreadPosition (fun o v => rfl) u
      delta.changes.upsert hu huniq _
  · intro current delta u hu huniq
    exact mem_foldl_upsert Order.order_id spreadOrder (fun o v => rfl) u
      delta.changes.upsert hu huniq _
  · intro current delta u hu huniq
    exact mem_foldl_upsert Holding.isin spreadHolding (fun o v => rfl) u
      delta.changes.upsert hu huniq _
  · intro current delta u hu huniq
    exact mem_foldl_upsert Trade.trade_id spreadTrade (fun o v => rfl) u
      delta.changes.upsert hu huniq _

/-- Witness for claim C3: removing P1 deletes it, and a delta carrying P1
in both `remove` and `upsert` leaves the upserted entity present. -/
theorem c3_merge_remove_then_upsert_witness :
    ([posP1].map Position.id).Nodup
      ∧ "P1" ∈ (removeDelta 1).changes.remove
      ∧ (∀ u ∈ (removeDelta 1).changes.upsert, u.id ≠ "P1")
      ∧ (∀ x ∈ DataMerger.mergePositions [posP1] (removeDelta 1), x.id ≠ "P1")
      ∧ posP1Upd ∈ (bothDelta 1).changes.upsert
      ∧ posP1Upd ∈ DataMerger.mergePositions [posP1] (bothDelta 1) :=
  ⟨by decide, by decide, by decide,
   c3_merge_remove_then_upsert.1 [posP1] (removeDelta 1) "P1"
     (by decide) (by decide) (by decide),
   by decide,
   c3_merge_remove_then_upsert.2.1 [posP1] (bothDelta 1) posP1Upd
     (by decide) (by decide)⟩

theorem toFinset_eq_of_dedup_length_eq [DecidableEq κ] (l1 l2 : List κ)
    (hcard : l1.dedup.length = l2.dedup.length)
    (hsub : ∀ a ∈ l1, a ∈ l2) : l1.toFinset = l2.toFinset := by
  apply Finset.eq_of_subset_of_card_le
  · intro a ha
    exact List.mem_toFinset.mpr (hsub a (List.mem_toFinset.mp ha))
  · rw [List.card_toFinset, List.card_toFinset, hcard]

/-- Claim C10: `DataMerger.hasChanged` compares only identity keys — it
returns `false` exactly when the two lists have equal length and equal sets
of identity-key values, regardless of every other field, and `true` exactly
when the lengths or the key sets differ. -/
theorem c10_hasChanged_keys_only {α κ : Type} [DecidableEq κ]
    (oldData newData : List α) (idField : α → κ) :
    DataMerger.hasChanged oldData newData idField = false
      ↔ oldData.length = newData.length
        ∧ (oldData.map idField).toFinset = (newData.map idField).toFinset := by
  unfold DataMerger.hasChanged
  by_cases hlen : oldData.length = newData.length
  · rw [if_neg (by simp [hlen])]
    by_cases hcard : (oldData.map idField).dedup.length
        = (newData.map idField).dedup.length
    · rw [if_neg (by simp [hcard])]
      constructor
      · intro h
        refine ⟨hlen, toFinset_eq_of_dedup_length_eq _ _ hcard ?_⟩
        intro a ha
        have h2 : ¬ ((oldData.map idField).dedup.any
            fun i => decide (i ∉ (newData.map idField).dedup)) = true := by
          rw [h]
          simp
        by_contra hnot
        apply h2
        refine List.any_eq_true.mpr ⟨a, List.mem_dedup.mpr ha, ?_⟩
        refine decide_eq_true ?_
        rw [List.mem_dedup]
        exact hnot
      · intro hp
        have hset := hp.2
        rw [Bool.eq_false_iff]
        intro hany
        rcases List.any_eq_true.mp hany with ⟨i, hi, hdec⟩
        have hnotin := of_decide_eq_true hdec
        apply hnotin
        rw [List.mem_dedup]
        have hin : i ∈ (oldData.map idField).toFinset :=
          List.mem_toFinset.mpr (List.mem_dedup.mp hi)
        rw [hset] at hin
        exact List.mem_toFinset.mp hin
    · rw [if_pos (by simp [hcard])]
      constructor
      · intro h
        cases h
      · intro hp
        exfalso
        apply hcard
        rw [← List.card_toFinset, ← List.card_toFinset, hp.2]
  · rw [if_pos (by simp [hlen])]
    constructor
    · intro h
      cases h
    · intro hp
      exact absurd hp.1 hlen

/-- Witness for claim C10: two singleton lists whose positions share the id
P1 but differ in quantity are reported unchanged. -/
theorem c10_hasChanged_keys_only_witness :
    DataMerger.hasChanged [posP1] [posP1Upd] Position.id = false :=
  (c10_hasChanged_keys_only [posP1] [posP1Upd] Position.id).mpr
    ⟨rfl, by decide⟩
